import Mathlib

/-!
Verification of the subscription-detection core of the
smart-financial-coach repository: a shallow embedding of
`src/backend/ML_models/find_subscriptions.py` and of the
`/files/{file_id}/subscriptions` endpoint of `src/backend/app.py`,
with theorems settling the specified properties.
-/

set_option maxHeartbeats 1000000

namespace SmartCoach

/-! ### Merchant Normalizer (`_norm_merchant`, find_subscriptions.py lines 14-18)

The Python code is
`s.astype(str).str.upper()
  .str.replace(r"[^A-Z0-9&+ ]", "", regex=True)
  .str.replace(r"\s+", " ", regex=True)
  .str.strip()`.
Characters are modelled at ASCII level (`Char.toUpper` only maps basic
latin letters, matching Python for ASCII input). -/

/-- ASCII whitespace characters matched by the regex class `\s`. -/
def isPySpace (c : Char) : Bool :=
  c = ' ' || c = '\t' || c = '\n' || c = '\r' || c = '\x0b' || c = '\x0c'

/-- Characters kept by the replacement of `[^A-Z0-9&+ ]` with the empty
string (find_subscriptions.py line 16): uppercase letters, digits,
ampersand, plus sign and space. -/
def isKeptChar (c : Char) : Bool :=
  ('A' ≤ c && c ≤ 'Z') || ('0' ≤ c && c ≤ '9') || c = '&' || c = '+' || c = ' '

/-- The replacement of each whitespace run `\s+` with a single space
(find_subscriptions.py line 17); `prevSpace` records whether the previous
character belonged to a whitespace run already replaced. -/
def collapseWs (prevSpace : Bool) : List Char → List Char
  | [] => []
  | c :: rest =>
    if isPySpace c then
      if prevSpace then collapseWs true rest
      else ' ' :: collapseWs true rest
    else c :: collapseWs false rest

/-- Python `str.strip()`: remove whitespace from both ends. -/
def pyStrip (l : List Char) : List Char :=
  ((l.dropWhile isPySpace).reverse.dropWhile isPySpace).reverse

/-- `_norm_merchant` (find_subscriptions.py lines 14-18): uppercase, drop
every character outside `[A-Z0-9&+ ]`, collapse whitespace runs to one
space, strip. -/
def normMerchant (s : String) : String :=
  ⟨pyStrip (collapseWs false ((s.data.map Char.toUpper).filter isKeptChar))⟩

/-- The output character class asserted by the spec for the normalizer:
uppercase letters, ampersand, apostrophe (codepoint 39) and space. -/
def specC3Char (c : Char) : Bool :=
  ('A' ≤ c && c ≤ 'Z') || c = '&' || c = Char.ofNat 39 || c = ' '

/-! Auxiliary facts about the normalizer pipeline. -/

theorem mem_collapseWs {c : Char} :
    ∀ (p : Bool) (l : List Char), c ∈ collapseWs p l → c = ' ' ∨ c ∈ l := by
  intro p l
  induction l generalizing p with
  | nil => intro h; simp [collapseWs] at h
  | cons a rest ih =>
    intro h
    by_cases ha : isPySpace a = true
    · cases p with
      | true =>
        simp only [collapseWs, ha, if_pos] at h
        rcases ih true h with h' | h'
        · exact Or.inl h'
        · exact Or.inr (List.mem_cons_of_mem _ h')
      | false =>
        simp only [collapseWs, ha, if_pos, if_neg, Bool.false_eq_true,
          not_false_iff, List.mem_cons] at h
        rcases h with h | h
        · exact Or.inl h
        · rcases ih true h with h' | h'
          · exact Or.inl h'
          · exact Or.inr (List.mem_cons_of_mem _ h')
    · simp only [collapseWs, ha, if_neg, Bool.false_eq_true, not_false_iff,
        List.mem_cons] at h
      rcases h with h | h
      · exact Or.inr (h ▸ List.mem_cons_self a rest)
      · rcases ih false h with h' | h'
        · exact Or.inl h'
        · exact Or.inr (List.mem_cons_of_mem _ h')

/-- Every character of the normalized key comes from the kept class. -/
theorem normMerchant_chars (s : String) {c : Char}
    (hc : c ∈ (normMerchant s).data) : isKeptChar c = true := by
  have hsub : c ∈ collapseWs false ((s.data.map Char.toUpper).filter isKeptChar) := by
    have h1 : c ∈ ((collapseWs false ((s.data.map Char.toUpper).filter isKeptChar)).dropWhile
        isPySpace).reverse.dropWhile isPySpace := by
      simpa [normMerchant, pyStrip] using hc
    have h2 := (List.dropWhile_suffix (l :=
      ((collapseWs false ((s.data.map Char.toUpper).filter isKeptChar)).dropWhile
        isPySpace).reverse) isPySpace).subset h1
    have h3 := List.mem_reverse.mp h2
    exact (List.dropWhile_suffix (p := isPySpace)).subset h3
  rcases mem_collapseWs false _ hsub with h | h
  · subst h; decide
  · exact List.of_mem_filter h

/-- No two adjacent characters are both whitespace. -/
def SpacedOk (l : List Char) : Prop :=
  l.Chain' fun a b => isPySpace a = false ∨ isPySpace b = false

/-- The first character, when present, is not whitespace. -/
def HeadNotSpace (l : List Char) : Prop :=
  ∀ c, l.head? = some c → isPySpace c = false

theorem headNotSpace_collapseWs_true :
    ∀ l : List Char, HeadNotSpace (collapseWs true l) := by
  intro l
  induction l with
  | nil => intro c h; simp [collapseWs] at h
  | cons a rest ih =>
    by_cases ha : isPySpace a = true
    · simpa [collapseWs, ha] using ih
    · intro c h
      simp only [collapseWs, ha, if_neg, Bool.false_eq_true, not_false_iff,
        List.head?_cons, Option.some.injEq] at h
      subst h
      simpa using ha

theorem spacedOk_collapseWs : ∀ (l : List Char) (p : Bool), SpacedOk (collapseWs p l) := by
  intro l
  induction l with
  | nil => intro p; simp [collapseWs, SpacedOk]
  | cons a rest ih =>
    intro p
    by_cases ha : isPySpace a = true
    · cases p with
      | true => simpa [collapseWs, ha] using ih true
      | false =>
        simp only [collapseWs, ha, if_pos, if_neg, Bool.false_eq_true, not_false_iff]
        refine List.chain'_cons'.mpr ⟨?_, ih true⟩
        intro y hy
        exact Or.inr (headNotSpace_collapseWs_true rest y hy)
    · simp only [collapseWs, ha, if_neg, Bool.false_eq_true, not_false_iff]
      refine List.chain'_cons'.mpr ⟨?_, ih false⟩
      intro y _
      exact Or.inl (Bool.not_eq_true _ ▸ ha)

/-- On a list whose whitespace characters are all plain spaces, with no two
adjacent whitespace characters and (when `p = true`) a non-whitespace head,
whitespace collapsing is the identity. -/
theorem collapseWs_eq_self :
    ∀ (l : List Char), (∀ c ∈ l, isPySpace c = true → c = ' ') → SpacedOk l →
      ∀ p : Bool, (p = true → HeadNotSpace l) → collapseWs p l = l := by
  intro l
  induction l with
  | nil => intro _ _ p _; cases p <;> rfl
  | cons a rest ih =>
    intro hall hchain p hp
    by_cases ha : isPySpace a = true
    · cases p with
      | true =>
        exact absurd (hp rfl a (by simp)) (by simp [ha])
      | false =>
        have haspace : a = ' ' := hall a (List.mem_cons_self a rest) ha
        have hrest : collapseWs true rest = rest := by
          refine ih (fun c hc h => hall c (List.mem_cons_of_mem _ hc) h)
            (List.Chain'.tail hchain) true (fun _ => ?_)
          intro c hc
          cases rest with
          | nil => simp at hc
          | cons b t =>
            simp only [List.head?_cons, Option.some.injEq] at hc
            subst hc
            rcases (List.chain'_cons.mp hchain).1 with h | h
            · exact absurd ha (by simp [h])
            · exact h
        subst haspace
        simp [collapseWs, hrest, show isPySpace ' ' = true by decide]
    · have hrest : collapseWs false rest = rest :=
        ih (fun c hc h => hall c (List.mem_cons_of_mem _ hc) h)
          (List.Chain'.tail hchain) false (by intro h; cases h)
      simp [collapseWs, ha, hrest]

theorem headNotSpace_dropWhile (l : List Char) :
    HeadNotSpace (l.dropWhile isPySpace) := by
  induction l with
  | nil => intro c h; simp at h
  | cons a rest ih =>
    by_cases ha : isPySpace a = true
    · simpa [List.dropWhile_cons, ha] using ih
    · intro c h
      simp only [List.dropWhile_cons, ha, if_neg, Bool.false_eq_true, not_false_iff,
        List.head?_cons, Option.some.injEq] at h
      subst h
      simpa using ha

theorem dropWhile_eq_self_of_headNotSpace {l : List Char} (h : HeadNotSpace l) :
    l.dropWhile isPySpace = l := by
  cases l with
  | nil => rfl
  | cons a rest =>
    have := h a (by simp)
    simp [List.dropWhile_cons, this]

theorem toUpper_of_kept {c : Char} (h : isKeptChar c = true) : c.toUpper = c := by
  simp only [isKeptChar, Bool.or_eq_true, Bool.and_eq_true, decide_eq_true_eq] at h
  rcases h with (((⟨h1, h2⟩ | ⟨h1, h2⟩) | h) | h) | h
  · have h90 : c.toNat ≤ 90 := by
      simpa only [Char.le_def, UInt32.le_def, BitVec.le_def] using h2
    simp only [Char.toUpper, Char.ofNat]
    rw [if_neg]
    omega
  · have h57 : c.toNat ≤ 57 := by
      simpa only [Char.le_def, UInt32.le_def, BitVec.le_def] using h2
    simp only [Char.toUpper, Char.ofNat]
    rw [if_neg]
    omega
  · subst h; decide
  · subst h; decide
  · subst h; decide

theorem space_of_kept {c : Char} (hk : isKeptChar c = true) (hs : isPySpace c = true) :
    c = ' ' := by
  simp only [isPySpace, Bool.or_eq_true, decide_eq_true_eq] at hs
  rcases hs with ((((h | h) | h) | h) | h) | h
  · exact h
  all_goals (subst h; exact absurd hk (by decide))

theorem headNotSpace_pyStrip (l : List Char) : HeadNotSpace (pyStrip l) := by
  intro c hc
  unfold pyStrip at hc
  rw [List.head?_reverse] at hc
  set w := l.dropWhile isPySpace with hw
  set v := w.reverse.dropWhile isPySpace with hv
  rcases List.dropWhile_suffix (l := w.reverse) isPySpace with ⟨t, ht⟩
  by_cases hnil : v = []
  · rw [hnil] at hc; simp at hc
  · have h1 : v.getLast? = w.reverse.getLast? := by
      rw [← ht]
      exact (List.getLast?_append_of_ne_nil t hnil).symm
    rw [h1, List.getLast?_reverse] at hc
    exact headNotSpace_dropWhile l c hc

theorem headNotSpace_pyStrip_reverse (l : List Char) :
    HeadNotSpace (pyStrip l).reverse := by
  unfold pyStrip
  rw [List.reverse_reverse]
  exact headNotSpace_dropWhile _

theorem pyStrip_eq_self {l : List Char} (h1 : HeadNotSpace l)
    (h2 : HeadNotSpace l.reverse) : pyStrip l = l := by
  unfold pyStrip
  rw [dropWhile_eq_self_of_headNotSpace h1, dropWhile_eq_self_of_headNotSpace h2,
    List.reverse_reverse]

theorem spacedOk_pyStrip {l : List Char} (h : SpacedOk l) : SpacedOk (pyStrip l) := by
  unfold pyStrip
  have hw : SpacedOk (l.dropWhile isPySpace) :=
    h.suffix (List.dropWhile_suffix isPySpace)
  have hwr : SpacedOk (l.dropWhile isPySpace).reverse :=
    List.chain'_reverse.mpr (hw.imp fun a b hab => Or.symm hab)
  have hv : SpacedOk ((l.dropWhile isPySpace).reverse.dropWhile isPySpace) :=
    hwr.suffix (List.dropWhile_suffix isPySpace)
  exact List.chain'_reverse.mpr (hv.imp fun a b hab => Or.symm hab)

theorem spacedOk_normMerchant (s : String) : SpacedOk (normMerchant s).data :=
  spacedOk_pyStrip (spacedOk_collapseWs _ false)

/-- C9: `_norm_merchant` is idempotent — normalizing an already-normalized
merchant key returns it unchanged. -/
theorem c9_normalize_idempotent (s : String) :
    normMerchant (normMerchant s) = normMerchant s := by
  have hchars : ∀ c ∈ (normMerchant s).data, isKeptChar c = true :=
    fun c hc => normMerchant_chars s hc
  have hA : (normMerchant s).data.map Char.toUpper = (normMerchant s).data := by
    have h := List.map_congr_left (f := Char.toUpper) (g := id)
      (fun a ha => toUpper_of_kept (hchars a ha))
    simpa using h
  have hB : (normMerchant s).data.filter isKeptChar = (normMerchant s).data :=
    List.filter_eq_self.mpr hchars
  have hC : collapseWs false (normMerchant s).data = (normMerchant s).data :=
    collapseWs_eq_self _ (fun c hc h => space_of_kept (hchars c hc) h)
      (spacedOk_normMerchant s) false (by intro h; cases h)
  have hD : pyStrip (normMerchant s).data = (normMerchant s).data :=
    pyStrip_eq_self (headNotSpace_pyStrip _) (headNotSpace_pyStrip_reverse _)
  show (⟨pyStrip (collapseWs false
      (((normMerchant s).data.map Char.toUpper).filter isKeptChar))⟩ : String) = normMerchant s
  rw [hA, hB, hC, hD]

/-- C3 fails on the code: the normalizer keeps digits (and the plus sign)
and removes apostrophes, so the output of `_norm_merchant` is not restricted
to uppercase letters, `&`, apostrophe and space. The digit `7` survives
normalization of `"7 Eleven"`, and the apostrophe of `"O'Neil"` is dropped. -/
theorem c3_counterexample :
    normMerchant "7 Eleven" = "7 ELEVEN" ∧
    (Char.ofNat 55) ∈ (normMerchant "7 Eleven").data ∧
    specC3Char (Char.ofNat 55) = false ∧
    normMerchant "O'Neil" = "ONEIL" := by
  refine ⟨by decide, by decide, by decide, by decide⟩

/-- C3 amended: the normalized key is the uppercased input with every
character outside `[A-Z0-9&+ ]` removed (apostrophes removed, digits and
plus kept), whitespace collapsed and stripped; every output character is an
uppercase letter, a digit, `&`, `+` or a space. -/
theorem c3_amended_output_class (s : String) (c : Char)
    (hc : c ∈ (normMerchant s).data) : isKeptChar c = true :=
  normMerchant_chars s hc

theorem c3_amended_output_class_witness :
    isKeptChar (Char.ofNat 55) = true :=
  c3_amended_output_class "7 Eleven" (Char.ofNat 55) (by decide)

/-! ### Data model and numeric helpers for `merchant_features`
(find_subscriptions.py lines 27-101)

A transaction row after pandas parsing: `date` is the result of
`pd.to_datetime(..., errors="coerce")` modelled as a day number (`none` is
`NaT`), `amount` the result of `pd.to_numeric(..., errors="coerce")`
(`none` is `NaN`).  Exact rational/real arithmetic replaces floats; the
only non-finite value a feature can take in the code is `NaN` from a
pandas standard deviation over fewer than two values, modelled by
`Option` (`none` = `NaN`). -/

structure Tx where
  date : Option Int
  description : String
  amount : Option Rat

/-- `x.dropna(subset=["date","description"])` (line 30): rows whose date
parsed (descriptions are always present as strings in this model). -/
def validRows (df : List Tx) : List Tx := df.filter fun t => t.date.isSome

/-- Date of a row known to have one (after `validRows`). -/
def dateOf (t : Tx) : Int := t.date.getD 0

/-- Stable insertion of a row into a date-sorted list (`sort_values("date")`,
line 36: mergesort-stable order on equal dates). -/
def insertTx (a : Tx) : List Tx → List Tx
  | [] => [a]
  | b :: t => if dateOf a ≤ dateOf b then a :: b :: t else b :: insertTx a t

/-- Stable sort of a group by date ascending (`g.sort_values("date")`). -/
def sortTxs : List Tx → List Tx
  | [] => []
  | a :: t => insertTx a (sortTxs t)

/-- Insertion of a key into a lexicographically sorted key list. -/
def insertStr (a : String) : List String → List String
  | [] => [a]
  | b :: t => if a ≤ b then a :: b :: t else b :: insertStr a t

/-- Sorted group keys (`groupby` iterates keys in ascending order). -/
def sortStrs : List String → List String
  | [] => []
  | a :: t => insertStr a (sortStrs t)

/-- Arithmetic mean; 0 on the empty list (pandas would give `NaN`, but every
use in the code is guarded by a non-emptiness check). -/
def listMean (xs : List Rat) : Rat := xs.sum / (xs.length : Rat)

/-- Sample variance with `ddof = 1` (pandas default), on lists of length
at least 2. -/
def sampleVar (xs : List Rat) : Rat :=
  ((xs.map fun v => (v - listMean xs) ^ 2).sum) / ((xs.length : Rat) - 1)

/-- Pandas `Series.std()` (`ddof = 1`): `NaN` — modelled as `none` — when
fewer than two values are present. -/
noncomputable def sampleStd (xs : List Rat) : Option Real :=
  if 2 ≤ xs.length then some (Real.sqrt (sampleVar xs)) else none

/-- Population variance with `ddof = 0` (numpy default); 0 on the empty
list. -/
def popVar (xs : List Rat) : Rat :=
  ((xs.map fun v => (v - listMean xs) ^ 2).sum) / (xs.length : Rat)

/-- Insertion sort on rationals, for `np.median` / `np.percentile`. -/
def insertRat (a : Rat) : List Rat → List Rat
  | [] => [a]
  | b :: t => if a ≤ b then a :: b :: t else b :: insertRat a t

def sortRats : List Rat → List Rat
  | [] => []
  | a :: t => insertRat a (sortRats t)

/-- `np.median`: middle element of the sorted list, or the average of the
two middle elements for even length (0 on the empty list; the code guards
emptiness). -/
def medianQ (xs : List Rat) : Rat :=
  let s := sortRats xs
  let k := s.length
  if k = 0 then 0
  else if k % 2 = 1 then s.getD (k / 2) 0
  else (s.getD (k / 2 - 1) 0 + s.getD (k / 2) 0) / 2

/-- `np.percentile` with the default linear interpolation: the value at
fractional rank `p/100 * (n-1)` of the sorted list. -/
def percentileQ (xs : List Rat) (p : Rat) : Rat :=
  let s := sortRats xs
  let n := s.length
  if n = 0 then 0
  else
    let rank : Rat := p * ((n : Rat) - 1) / 100
    let i : Nat := rank.floor.toNat
    let lo := s.getD i 0
    let hi := s.getD (min (i + 1) (n - 1)) 0
    lo + (rank - (i : Rat)) * (hi - lo)

/-- Smallest most-frequent value (`Series.mode().iat[0]`: pandas returns the
modes sorted ascending). -/
def modeMin (l : List Nat) : Nat :=
  let cands := l.dedup
  let mc := (cands.map fun v => (l.filter fun w => w = v).length).foldr max 0
  ((cands.filter fun v => (l.filter fun w => w = v).length = mc).min?).getD 0

/-- Civil date from a day number (days since 1970-01-01, the proleptic
Gregorian calendar used by pandas datetimes): returns (year, month, day).
Standard era-based conversion. -/
def civilFromDays (z : Int) : Int × Nat × Nat :=
  let zShift := z + 719468
  let era := zShift.fdiv 146097
  let doe := zShift - era * 146097
  let yoe := (doe - doe / 1460 + doe / 36524 - doe / 146096) / 365
  let y := yoe + era * 400
  let doy := doe - (365 * yoe + yoe / 4 - yoe / 100)
  let mp := (5 * doy + 2) / 153
  let d := doy - (153 * mp + 2) / 5 + 1
  let m := if mp < 10 then mp + 3 else mp - 9
  (if m ≤ 2 then y + 1 else y, m.toNat, d.toNat)

/-- Calendar year-month bucket of a day number (`dt.to_period("M")`). -/
def yearMonthOf (z : Int) : Int × Nat := ((civilFromDays z).1, (civilFromDays z).2.1)

/-- Calendar day-of-month of a day number (`dt.day`). -/
def dayOfMonthOf (z : Int) : Nat := (civilFromDays z).2.2

example : civilFromDays 0 = (1970, 1, 1) := by decide
example : civilFromDays 19723 = (2024, 1, 1) := by decide
example : civilFromDays 19782 = (2024, 2, 29) := by decide

/-- The daily 0/1 indicator series over the observed date span
(lines 72-74: `set_index(...floor("D")).assign(hit=1)["hit"]
.resample("D").max().fillna(0)`). -/
def dailyHits (dates : List Int) : List Rat :=
  (List.range (((dates.max?).getD 0 - (dates.min?).getD 0).toNat + 1)).map
    fun (i : Nat) => if (dates.min?).getD 0 + (i : Int) ∈ dates then 1 else 0

/-- Covariance (population normalization) of two equally long series. -/
def covPop (xs ys : List Rat) : Rat :=
  (((xs.zip ys).map fun p => (p.1 - listMean xs) * (p.2 - listMean ys)).sum) / (xs.length : Rat)

/-- Pearson correlation (`np.corrcoef(x0, x1)[0, 1]`): covariance divided by
the product of the standard deviations (the `ddof` factors cancel, so the
population normalization used here agrees with numpy). -/
noncomputable def pearson (xs ys : List Rat) : Real :=
  (covPop xs ys : Real) / (Real.sqrt (popVar xs) * Real.sqrt (popVar ys))

/-- `_autocorr_at_lag` (find_subscriptions.py lines 20-25).  The float test
`x0.std() == 0` holds exactly when the variance is zero, which is the
decidable rational condition used here. -/
noncomputable def autocorrAtLag (x : List Rat) (lag : Nat) : Real :=
  if x.length ≤ lag then 0
  else
    let x0 := x.take (x.length - lag)
    let x1 := x.drop lag
    if popVar x0 = 0 ∨ popVar x1 = 0 then 0 else pearson x0 x1

/-- One output row of `merchant_features`.  Every field is an exact number;
`gap_cv` is `Option` because `Series.std()` of a single gap is `NaN`
(`none`).  The final `replace([np.inf, -np.inf], np.nan)` of lines 98-101
is the identity in this model: every division in the extractor is guarded,
so no feature is ever `±inf` — and the replacement does not touch `NaN`. -/
structure FeatRow where
  merchant : String
  n_occurrences : Nat
  coverage_months : Nat
  median_gap_days : Rat
  gap_cv : Option Real
  day_of_month_mode : Nat
  dom_consistency : Rat
  amount_mean : Rat
  amount_cv : Real
  amount_iqr_ratio : Rat
  autocorr_30d : Real
  share_negative : Rat
  span_days : Int

/-- The loop body of `merchant_features` (lines 35-93) applied to one
merchant group `g`, already sorted by date ascending. -/
noncomputable def featRow (m : String) (g : List Tx) : FeatRow :=
  let n := g.length
  let dates := g.map dateOf
  let gaps : List Rat := List.zipWith (fun a b => ((a - b : Int) : Rat)) dates.tail dates
  let gapCv : Option Real :=
    if 2 ≤ n then
      if gaps ≠ [] ∧ listMean gaps ≠ 0 then
        (sampleStd gaps).map fun sd => sd / (listMean gaps : Real)
      else some 1
    else some 1
  let medianGap : Rat := if 2 ≤ n then (if gaps ≠ [] then medianQ gaps else 0) else 0
  let spanDays : Int := if 2 ≤ n then (dates.max?).getD 0 - (dates.min?).getD 0 else 0
  let amt := g.filterMap Tx.amount
  let amtMean : Rat := if amt.length ≠ 0 then listMean amt else 0
  let amtCv : Real :=
    if 1 < amt.length ∧ (1 : Rat) / 1000000000 < |amtMean| then
      Real.sqrt (sampleVar amt) / ((|amtMean| : Rat) : Real)
    else 0
  let amtIqr : Rat :=
    if 4 ≤ amt.length ∧ (1 : Rat) / 1000000000 < |amtMean| then
      (percentileQ amt 75 - percentileQ amt 25) / |amtMean|
    else 0
  let months := ((dates.map yearMonthOf).dedup).length
  let dom := dates.map dayOfMonthOf
  let domMode := if dom.length ≠ 0 then modeMin dom else 0
  let domCons : Rat :=
    if dom.length ≠ 0 then ((dom.filter fun d => d = domMode).length : Rat) / (dom.length : Rat)
    else 0
  let ac30 := autocorrAtLag (dailyHits dates) 30
  let shareNeg : Rat :=
    ((g.filter fun t => match t.amount with
      | some a => decide (a < 0)
      | none => false).length : Rat) / (n : Rat)
  { merchant := m, n_occurrences := n, coverage_months := months,
    median_gap_days := medianGap, gap_cv := gapCv, day_of_month_mode := domMode,
    dom_consistency := domCons, amount_mean := amtMean, amount_cv := amtCv,
    amount_iqr_ratio := amtIqr, autocorr_30d := ac30, share_negative := shareNeg,
    span_days := spanDays }

/-- `merchant_features` (find_subscriptions.py lines 27-101): drop rows with
unparseable dates, group by normalized merchant key (keys ascending, as
pandas `groupby` iterates them), sort each group by date, and build one
feature row per merchant. -/
noncomputable def merchantFeatures (df : List Tx) : List FeatRow :=
  let x := validRows df
  (sortStrs ((x.map fun t => normMerchant t.description).dedup)).map fun m =>
    featRow m (sortTxs (x.filter fun t => normMerchant t.description = m))

theorem modeMin_singleton (d : Nat) : modeMin [d] = d := by
  simp [modeMin, List.dedup_cons_of_not_mem, List.min?]

/-- C7: for a merchant group with exactly one transaction the extractor
outputs `median_gap_days = 0`, `gap_cv = 1.0` and `dom_consistency = 1.0`
(find_subscriptions.py lines 48-51 and 67-69). -/
theorem c7_single_transaction (m : String) (t : Tx) :
    (featRow m [t]).median_gap_days = 0 ∧
    (featRow m [t]).gap_cv = some 1 ∧
    (featRow m [t]).dom_consistency = 1 := by
  refine ⟨?_, ?_, ?_⟩
  · simp [featRow]
  · simp [featRow]
  · simp [featRow, modeMin_singleton]

/-- C1 fails on the code: for a merchant with exactly two transactions on
distinct dates, `gaps` holds a single value, `Series.std()` (`ddof=1`) of a
single value is `NaN`, and `gap_cv = NaN / mean` is `NaN`; the final
`replace([np.inf, -np.inf], np.nan)` does not remove it, so the extractor
returns a non-finite field, contradicting the spec invariant (and the
code's own `# ensure numeric cols are finite` comment). -/
theorem c1_two_transactions_gap_cv_nan :
    (merchantFeatures
      [{ date := some 0, description := "Netflix", amount := some (-15) },
       { date := some 5, description := "Netflix", amount := some (-15) }]).map
      FeatRow.gap_cv = [none] := by
  with_unfolding_all rfl

theorem foldl_min_le (t : List Int) : ∀ a : Int, t.foldl min a ≤ a := by
  induction t with
  | nil => intro a; exact le_refl a
  | cons b t ih =>
    intro a
    exact le_trans (ih (min a b)) (min_le_left a b)

theorem le_foldl_max (t : List Int) : ∀ a : Int, a ≤ t.foldl max a := by
  induction t with
  | nil => intro a; exact le_refl a
  | cons b t ih =>
    intro a
    exact le_trans (le_max_left a b) (ih (max a b))

theorem minD_le_maxD {l : List Int} (h : l ≠ []) :
    (l.min?).getD 0 ≤ (l.max?).getD 0 := by
  cases l with
  | nil => exact absurd rfl h
  | cons a t =>
    simp only [List.min?, List.max?, Option.getD_some]
    exact le_trans (foldl_min_le t a) (le_foldl_max t a)

theorem length_dailyHits (dates : List Int) :
    (dailyHits dates).length = ((dates.max?).getD 0 - (dates.min?).getD 0).toNat + 1 := by
  rw [dailyHits, List.length_map, List.length_range]

theorem popVar_short {l : List Rat} (h : l.length ≤ 1) : popVar l = 0 := by
  match l, h with
  | [], _ => simp [popVar]
  | [a], _ => simp [popVar, listMean]

/-- C8: for every nonempty merchant group, `autocorr_30d` is 0 whenever the
observed date span is at most 30 days or either half of the lag-30 split of
the daily indicator series has zero variance, and otherwise equals the
Pearson correlation of the indicator series with its 30-day shift
(find_subscriptions.py lines 20-25 and 72-75).  The code returns 0 via the
length guard for spans up to 29 days and via the zero-variance guard for a
span of exactly 30 days, where both halves are singletons. -/
theorem c8_autocorr_characterization (m : String) (g : List Tx) (hne : g ≠ []) :
    (featRow m g).autocorr_30d =
      (if ((g.map dateOf).max?).getD 0 - ((g.map dateOf).min?).getD 0 ≤ 30 ∨
          popVar ((dailyHits (g.map dateOf)).take ((dailyHits (g.map dateOf)).length - 30)) = 0 ∨
          popVar ((dailyHits (g.map dateOf)).drop 30) = 0 then 0
       else pearson ((dailyHits (g.map dateOf)).take ((dailyHits (g.map dateOf)).length - 30))
         ((dailyHits (g.map dateOf)).drop 30)) := by
  have hdne : g.map dateOf ≠ [] := by
    intro hcon
    exact hne (List.map_eq_nil_iff.mp hcon)
  set dates := g.map dateOf with hdates
  set x := dailyHits dates with hxdef
  set lo := (dates.min?).getD 0 with hlo
  set hi := (dates.max?).getD 0 with hhi
  have hspan : (0 : Int) ≤ hi - lo := by
    have := minD_le_maxD hdne
    omega
  have hxlen : x.length = (hi - lo).toNat + 1 := length_dailyHits dates
  have hfeat : (featRow m g).autocorr_30d = autocorrAtLag x 30 := by
    simp [featRow]
  rw [hfeat]
  by_cases hle : hi - lo ≤ 29
  · have hlen30 : x.length ≤ 30 := by omega
    rw [autocorrAtLag, if_pos hlen30, if_pos (Or.inl (by omega))]
  · by_cases heq : hi - lo = 30
    · have hlen31 : x.length = 31 := by omega
      have hx0 : popVar (x.take (x.length - 30)) = 0 := by
        apply popVar_short
        simp [hlen31]
      rw [autocorrAtLag, if_neg (by omega), if_pos (Or.inl hx0),
        if_pos (Or.inl (by omega))]
    · have hgt : 31 ≤ hi - lo := by omega
      rw [autocorrAtLag, if_neg (by omega)]
      have hA : ¬(hi - lo ≤ 30) := by omega
      simp only [eq_false hA, false_or]

theorem c8_autocorr_characterization_witness :
    ([{ date := some 0, description := "A", amount := none }] : List Tx) ≠ [] ∧
    (featRow "A" [{ date := some 0, description := "A", amount := none }]).autocorr_30d =
      (if (([({ date := some 0, description := "A", amount := none } : Tx)].map dateOf).max?).getD 0 -
          (([({ date := some 0, description := "A", amount := none } : Tx)].map dateOf).min?).getD 0 ≤ 30 ∨
          popVar ((dailyHits ([({ date := some 0, description := "A", amount := none } : Tx)].map dateOf)).take
            ((dailyHits ([({ date := some 0, description := "A", amount := none } : Tx)].map dateOf)).length - 30)) = 0 ∨
          popVar ((dailyHits ([({ date := some 0, description := "A", amount := none } : Tx)].map dateOf)).drop 30) = 0 then 0
       else pearson
         ((dailyHits ([({ date := some 0, description := "A", amount := none } : Tx)].map dateOf)).take
           ((dailyHits ([({ date := some 0, description := "A", amount := none } : Tx)].map dateOf)).length - 30))
         ((dailyHits ([({ date := some 0, description := "A", amount := none } : Tx)].map dateOf)).drop 30)) :=
  ⟨by simp, c8_autocorr_characterization "A" _ (by simp)⟩

/-! ### Training pipeline (`train_subscription_model`,
find_subscriptions.py lines 104-127) -/

/-- Python substring test `needle in hay`. -/
def containsSeq (needle : List Char) : List Char → Bool
  | [] => needle.isEmpty
  | c :: t => needle.isPrefixOf (c :: t) || containsSeq needle t

def containsSub (needle hay : String) : Bool := containsSeq needle.data hay.data

/-- `SUBS_MERCHANTS` (line 12): seed labels for known subscriptions. -/
def SUBS_MERCHANTS : List String := ["NETFLIX", "SPOTIFY", "ICLOUD", "CITY GYM"]

/-- `label_from_known` (lines 104-105) applied to one feature row: label 1
iff the normalized merchant contains a known-subscription fragment. -/
def labelFromKnown (r : FeatRow) : Nat :=
  if SUBS_MERCHANTS.any (fun s => containsSub s r.merchant) then 1 else 0

/-- The feature column order of `X = feats.drop(columns=["merchant"])`:
the insertion order of the dict literal at lines 79-93. -/
def featureColNames : List String :=
  ["n_occurrences", "coverage_months", "median_gap_days", "gap_cv",
   "day_of_month_mode", "dom_consistency", "amount_mean", "amount_cv",
   "amount_iqr_ratio", "autocorr_30d", "share_negative", "span_days"]

/-- The numeric part of a feature row, in the column order of
`featureColNames` (`none` is a `NaN` entry). -/
noncomputable def numericRow (r : FeatRow) : List (Option Real) :=
  [some (r.n_occurrences : Real), some (r.coverage_months : Real),
   some ((r.median_gap_days : Rat) : Real), r.gap_cv,
   some (r.day_of_month_mode : Real), some ((r.dom_consistency : Rat) : Real),
   some ((r.amount_mean : Rat) : Real), some r.amount_cv,
   some ((r.amount_iqr_ratio : Rat) : Real), some r.autocorr_30d,
   some ((r.share_negative : Rat) : Real), some ((r.span_days : Int) : Real)]

/-- `train_subscription_model` (lines 107-127).  The sklearn pipeline fit
(imputer, scaler, logistic regression, lines 116-126) is abstracted as the
parameter `fit`; the guard at lines 113-114 runs before it is consulted, so
the result is an error for every `fit` whenever the labels have fewer than
two distinct classes.  When the corpus yields no merchant group at all,
`merchant_features` returns an empty frame that has no columns, and
`label_from_known` raises `KeyError: 'merchant'` (line 105) before the
diversity guard is reached; that failure is modelled by the first branch. -/
noncomputable def trainSubscriptionModel {M : Type}
    (fit : List (List (Option Real)) → List Nat → M) (df : List Tx) :
    Except String (M × List String) :=
  let feats := merchantFeatures df
  if feats.isEmpty then
    Except.error "KeyError: merchant"
  else
    let y := feats.map labelFromKnown
    if y.dedup.length < 2 then
      Except.error
        "Training data has only one class; add at least one positive and one negative merchant."
    else
      Except.ok (fit (feats.map numericRow) y, featureColNames)

/-- C4 (amended): when the corpus yields at least one merchant group and
the derived per-merchant labels have fewer than two distinct classes,
training fails with the configuration error before any classifier fitting
is attempted (the outcome is the same error for every possible fitting
function, so `fit` is never consulted), and no model is produced. -/
theorem c4_single_class_training_rejected {M : Type} (df : List Tx)
    (hne : (merchantFeatures df).isEmpty = false)
    (h : ((merchantFeatures df).map labelFromKnown).dedup.length < 2) :
    ∀ fit : List (List (Option Real)) → List Nat → M,
      trainSubscriptionModel fit df =
        Except.error
          "Training data has only one class; add at least one positive and one negative merchant." := by
  intro fit
  simp only [trainSubscriptionModel]
  rw [if_neg (by rw [hne]; exact Bool.false_ne_true), if_pos h]

/-- C4 fails as universally stated: a corpus that yields no merchant group
(here the empty corpus) also has fewer than two distinct label classes, but
training fails with the `KeyError` from the column access in
`label_from_known` on the column-less empty frame, not with the
insufficient-label-diversity configuration error. -/
theorem c4_counterexample :
    ((merchantFeatures ([] : List Tx)).map labelFromKnown).dedup.length < 2 ∧
    trainSubscriptionModel (fun _ _ => ()) ([] : List Tx) =
      Except.error "KeyError: merchant" ∧
    trainSubscriptionModel (fun _ _ => ()) ([] : List Tx) ≠
      Except.error
        "Training data has only one class; add at least one positive and one negative merchant." := by
  have hfe : merchantFeatures ([] : List Tx) = [] := by
    with_unfolding_all rfl
  refine ⟨by rw [hfe]; decide, ?_, ?_⟩
  · simp [trainSubscriptionModel, hfe]
  · simp [trainSubscriptionModel, hfe]

theorem c4_single_class_training_rejected_witness :
    (merchantFeatures
        [{ date := some 0, description := "Local Cafe", amount := some (-5) }]).isEmpty = false ∧
    ((merchantFeatures
        [{ date := some 0, description := "Local Cafe", amount := some (-5) }]).map
      labelFromKnown).dedup.length < 2 ∧
    trainSubscriptionModel (fun _ _ => ())
        [{ date := some 0, description := "Local Cafe", amount := some (-5) }] =
      Except.error
        "Training data has only one class; add at least one positive and one negative merchant." := by
  have hlab : ((merchantFeatures
      [{ date := some 0, description := "Local Cafe", amount := some (-5) }]).map
      labelFromKnown) = [0] := by
    with_unfolding_all rfl
  have hne : (merchantFeatures
      [{ date := some 0, description := "Local Cafe", amount := some (-5) }]).isEmpty = false := by
    by_contra hcon
    have hnil := List.isEmpty_iff.mp (Bool.of_not_eq_false hcon)
    rw [hnil] at hlab
    exact absurd hlab (by simp)
  have h2 : ((merchantFeatures
      [{ date := some 0, description := "Local Cafe", amount := some (-5) }]).map
      labelFromKnown).dedup.length < 2 := by
    rw [hlab]; decide
  exact ⟨hne, h2, c4_single_class_training_rejected _ hne h2 _⟩

/-! ### Inference (`predict_subscriptions`, find_subscriptions.py
lines 129-145)

A feature table is an association list from column name to (possibly `NaN`)
value; `predict_subscriptions` extends it with each saved feature column
that is absent (constant 0.0) and then selects the saved columns in their
saved order. -/

/-- One iteration of `for c in feature_cols: if c not in X.columns:
X[c] = 0.0` (line 133-134). -/
def addColStep (acc : List (String × Option Real)) (c : String) :
    List (String × Option Real) :=
  if (acc.map Prod.fst).contains c then acc else acc ++ [(c, some 0)]

/-- The whole column-adding loop (lines 133-134). -/
def extendCols (featureCols : List String) (t : List (String × Option Real)) :
    List (String × Option Real) :=
  featureCols.foldl addColStep t

/-- `X = X[feature_cols]` (line 135): select columns in the saved order. -/
def selectCols (t : List (String × Option Real)) (sel : List String) :
    List (Option Real) :=
  sel.map fun c => (t.lookup c).getD none

/-- Column realignment of one row (lines 133-135). -/
def alignRow (featureCols : List String) (t : List (String × Option Real)) :
    List (Option Real) :=
  selectCols (extendCols featureCols t) featureCols

/-- One row of the frame returned by `predict_subscriptions`
(lines 137-145). -/
structure OutRow where
  merchant : String
  score : Real
  n_occurrences : Nat
  coverage_months : Nat
  median_gap_days : Rat
  dom_consistency : Rat
  amount_mean : Rat
  autocorr_30d : Real

/-- Stable descending insertion for `sort_values("score", ascending=False)`
(line 145). -/
noncomputable def insertOut (a : OutRow) : List OutRow → List OutRow
  | [] => [a]
  | b :: t => if b.score ≤ a.score then a :: b :: t else b :: insertOut a t

noncomputable def sortOutDesc : List OutRow → List OutRow
  | [] => []
  | a :: t => insertOut a (sortOutDesc t)

/-- `predict_subscriptions` (lines 129-145): extract features, realign the
feature columns to the model's saved order, score every merchant with the
model (`predict_proba`, abstracted as `model`), and sort by score
descending. -/
noncomputable def predictSubscriptions (df : List Tx)
    (model : List (Option Real) → Real) (featureCols : List String) :
    List OutRow :=
  sortOutDesc ((merchantFeatures df).map fun r =>
    { merchant := r.merchant,
      score := model (alignRow featureCols (featureColNames.zip (numericRow r))),
      n_occurrences := r.n_occurrences, coverage_months := r.coverage_months,
      median_gap_days := r.median_gap_days, dom_consistency := r.dom_consistency,
      amount_mean := r.amount_mean, autocorr_30d := r.autocorr_30d })

theorem lookup_extendCols_of_isSome :
    ∀ (fc : List String) (acc : List (String × Option Real)) (c : String),
      (acc.lookup c).isSome → (extendCols fc acc).lookup c = acc.lookup c := by
  intro fc
  induction fc with
  | nil => intro acc c _; rfl
  | cons d fc ih =>
    intro acc c hsome
    show (extendCols fc (addColStep acc d)).lookup c = acc.lookup c
    have hstep : (addColStep acc d).lookup c = acc.lookup c := by
      unfold addColStep
      by_cases hd : (acc.map Prod.fst).contains d = true
      · rw [if_pos hd]
      · rw [if_neg hd, List.lookup_append]
        rcases Option.isSome_iff_exists.mp hsome with ⟨v, hv⟩
        simp [hv]
    rw [ih (addColStep acc d) c (by rw [hstep]; exact hsome), hstep]

theorem contains_false_of_lookup_none {t : List (String × Option Real)} {c : String}
    (h : t.lookup c = none) : (t.map Prod.fst).contains c = false := by
  have h' := List.lookup_eq_none_iff.mp h
  simp only [List.contains_eq_any_beq, List.any_eq_false]
  intro p hp
  rcases List.mem_map.mp hp with ⟨q, hq, rfl⟩
  simpa using h' q hq

theorem lookup_extendCols_of_missing :
    ∀ (fc : List String) (acc : List (String × Option Real)) (c : String),
      c ∈ fc → acc.lookup c = none →
      (extendCols fc acc).lookup c = some (some 0) := by
  intro fc
  induction fc with
  | nil => intro acc c hc _; exact absurd hc (List.not_mem_nil c)
  | cons d fc ih =>
    intro acc c hc hnone
    show (extendCols fc (addColStep acc d)).lookup c = some (some 0)
    by_cases hcd : c = d
    · subst hcd
      have hnc : (acc.map Prod.fst).contains c = false :=
        contains_false_of_lookup_none hnone
      have hstep : (addColStep acc c).lookup c = some (some 0) := by
        unfold addColStep
        rw [if_neg (by rw [hnc]; exact Bool.false_ne_true), List.lookup_append, hnone]
        simp
      rw [lookup_extendCols_of_isSome fc _ c (by rw [hstep]; rfl), hstep]
    · have hstep : (addColStep acc d).lookup c = none := by
        unfold addColStep
        by_cases hd : (acc.map Prod.fst).contains d = true
        · rw [if_pos hd]; exact hnone
        · rw [if_neg hd, List.lookup_append, hnone]
          simp [List.lookup_cons, show (c == d) = false by simp [hcd]]
      cases hc with
      | head => exact absurd rfl hcd
      | tail _ hc2 => exact ih (addColStep acc d) c hc2 hstep

theorem length_insertOut (a : OutRow) :
    ∀ l : List OutRow, (insertOut a l).length = l.length + 1 := by
  intro l
  induction l with
  | nil => rfl
  | cons b t ih =>
    unfold insertOut
    by_cases hb : b.score ≤ a.score
    · rw [if_pos hb]; rfl
    · rw [if_neg hb]
      simp [ih]

theorem length_sortOutDesc : ∀ l : List OutRow, (sortOutDesc l).length = l.length := by
  intro l
  induction l with
  | nil => rfl
  | cons a t ih =>
    show (insertOut a (sortOutDesc t)).length = t.length + 1
    rw [length_insertOut, ih]

/-- C6: scoring a batch whose feature table lacks columns of the model's
saved ordered column list substitutes the constant 0.0 for each missing
column, places every column at the position the saved order dictates
(present columns keep their original values, wherever they sat in the
incoming table), and still produces one score per merchant
(find_subscriptions.py lines 129-136). -/
theorem c6_missing_columns_scored (fc : List String)
    (t : List (String × Option Real)) (df : List Tx)
    (model : List (Option Real) → Real) (i : Nat) (c : String)
    (hi : fc[i]? = some c) :
    (alignRow fc t).length = fc.length ∧
    (t.lookup c = none → (alignRow fc t)[i]? = some (some 0)) ∧
    (∀ v, t.lookup c = some v → (alignRow fc t)[i]? = some v) ∧
    (predictSubscriptions df model fc).length = (merchantFeatures df).length := by
  refine ⟨?_, ?_, ?_, ?_⟩
  · simp [alignRow, selectCols]
  · intro hnone
    have hmem : c ∈ fc := List.getElem?_mem hi
    simp [alignRow, selectCols, hi, lookup_extendCols_of_missing fc t c hmem hnone]
  · intro v hv
    simp [alignRow, selectCols, hi,
      lookup_extendCols_of_isSome fc t c (by rw [hv]; rfl), hv]
  · simp only [predictSubscriptions]
    rw [length_sortOutDesc, List.length_map]

theorem c6_missing_columns_scored_witness :
    ((["gap_cv", "extra_col"] : List String)[1]? = some "extra_col") ∧
    ((alignRow ["gap_cv", "extra_col"] [("gap_cv", some 1)]).length = 2 ∧
     ([(("gap_cv" : String), (some 1 : Option Real))].lookup "extra_col" = none →
       (alignRow ["gap_cv", "extra_col"] [("gap_cv", some 1)])[1]? = some (some 0)) ∧
     (∀ v, [(("gap_cv" : String), (some 1 : Option Real))].lookup "extra_col" = some v →
       (alignRow ["gap_cv", "extra_col"] [("gap_cv", some 1)])[1]? = some v) ∧
     (predictSubscriptions [] (fun _ => 0) ["gap_cv", "extra_col"]).length =
       (merchantFeatures []).length) :=
  ⟨by decide,
   c6_missing_columns_scored ["gap_cv", "extra_col"] [("gap_cv", some 1)] []
     (fun _ => 0) 1 "extra_col" (by decide)⟩

/-! ### The scoring endpoint (`get_subscriptions`, app.py lines 792-891)

The endpoint reads a CSV into a frame with named columns, detects the
date/description/amount columns by keyword scan, restricts to expense rows,
runs `predict_subscriptions`, filters by threshold and attaches a cost
estimate per candidate.  pandas cell parsing is modelled by a `Cell`
carrying the results of `pd.to_datetime` / `str` / `pd.to_numeric`. -/

structure Cell where
  asDate : Option Int
  asStr : String
  asNum : Option Rat

structure InFrame where
  cols : List String
  rows : List (String → Cell)

def lowerStr (s : String) : String := ⟨s.data.map Char.toLower⟩

def dateKeywords : List String := ["date", "time"]

def descKeywords : List String := ["description", "merchant", "payee"]

def amountKeywords : List String := ["amount", "debit", "credit", "value"]

/-- The date/description detection loops (app.py lines 808-812): no `break`,
so the last matching column wins. -/
def detectLast (keys cols : List String) : Option String :=
  cols.foldl
    (fun acc c => if keys.any fun k => containsSub k (lowerStr c) then some c else acc) none

/-- The amount detection loop (app.py lines 823-827): it `break`s, so the
first matching column wins. -/
def detectFirst (keys : List String) : List String → Option String
  | [] => none
  | c :: t => if keys.any fun k => containsSub k (lowerStr c) then some c else detectFirst keys t

/-- The HTTP error conditions raised by the endpoint. -/
inductive HErr where
  | notFound : HErr
  | modelUnavailable : HErr
  | badRequest : String → HErr
deriving DecidableEq

/-- One element of `subscription_list` (app.py lines 865-876). -/
structure SubEntry where
  merchant : String
  subscription_score : Real
  occurrences : Nat
  coverage_months : Nat
  median_gap_days : Rat
  day_consistency : Rat
  average_amount : Rat
  average_monthly_cost : Rat
  autocorrelation_30d : Real
  website : Option String

/-- The JSON payload of a successful response (app.py lines 880-887). -/
structure SubsResult where
  threshold : Rat
  total_subscriptions : Nat
  total_monthly_cost : Rat
  expense_transactions_analyzed : Nat
  subscriptions : List SubEntry

/-- The per-candidate monthly-cost estimate (app.py lines 850-860):
`|amount_mean| * (n_occurrences / coverage_months)` when coverage is
positive, else `|amount_mean| * (30 / median_gap_days)` when the median gap
is positive, else `|amount_mean|`. -/
def estimateMonthlyCost (amountMean : Rat) (nOcc coverageMonths : Nat)
    (medianGap : Rat) : Rat :=
  if 0 < coverageMonths then |amountMean| * ((nOcc : Rat) / (coverageMonths : Rat))
  else if 0 < medianGap then |amountMean| * (30 / medianGap)
  else |amountMean|

/-- Python `round(x, 2)` on exact values (round half to even). -/
def pyRound2 (q : Rat) : Rat :=
  let y := q * 100
  let f := y.floor
  let r := y - (f : Rat)
  let n : Int :=
    if r < 1 / 2 then f
    else if 1 / 2 < r then f + 1
    else if f % 2 = 0 then f else f + 1
  (n : Rat) / 100

/-- The parsed two/three-column sub-frame restricted to expense rows
(app.py lines 819-836): build `date`, `description`, `amount` (constant 0.0
when no amount column was detected), then keep rows with `amount <= 0`
(a `NaN` amount compares false and is dropped). -/
def parsedExpenseRows (frame : InFrame) (dateCol descCol : String)
    (amountCol : Option String) : List Tx :=
  (frame.rows.map fun r =>
    { date := (r dateCol).asDate, description := (r descCol).asStr,
      amount := match amountCol with
        | some ac => (r ac).asNum
        | none => some 0 }).filter fun t =>
    match t.amount with
    | some a => decide (a ≤ 0)
    | none => false

/-- `get_subscriptions` (app.py lines 792-891).  `fileExists` models the
upload-directory check, `modelLoaded` the `SUBSCRIPTION_MODEL_LOADED` flag,
`model`/`featureCols` the loaded artifact, `website` the external
`find_subscription_website` lookup. -/
noncomputable def getSubscriptionsEndpoint
    (fileExists modelLoaded : Bool)
    (model : List (Option Real) → Real) (featureCols : List String)
    (website : String → Option String)
    (threshold : Rat) (frame : InFrame) : Except HErr SubsResult :=
  if fileExists = false then Except.error HErr.notFound
  else if modelLoaded = false then Except.error HErr.modelUnavailable
  else
    match detectLast dateKeywords frame.cols, detectLast descKeywords frame.cols with
    | some dateCol, some descCol =>
      let dfSub := parsedExpenseRows frame dateCol descCol
        (detectFirst amountKeywords frame.cols)
      if dfSub.length = 0 then
        Except.error (HErr.badRequest "No expense transactions found for subscription analysis")
      else
        let subs := predictSubscriptions dfSub model featureCols
        let high := subs.filter fun row => decide ((threshold : Real) ≤ row.score)
        let entries := high.map fun row =>
          { merchant := row.merchant, subscription_score := row.score,
            occurrences := row.n_occurrences, coverage_months := row.coverage_months,
            median_gap_days := row.median_gap_days, day_consistency := row.dom_consistency,
            average_amount := row.amount_mean,
            average_monthly_cost := pyRound2 (estimateMonthlyCost row.amount_mean
              row.n_occurrences row.coverage_months row.median_gap_days),
            autocorrelation_30d := row.autocorr_30d,
            website := website row.merchant }
        Except.ok
          { threshold := threshold, total_subscriptions := entries.length,
            total_monthly_cost := pyRound2 ((entries.map SubEntry.average_monthly_cost).sum),
            expense_transactions_analyzed := dfSub.length, subscriptions := entries }
    | _, _ => Except.error (HErr.badRequest "Could not find date or description columns")

/-- C5: while no trained model is loaded (`SUBSCRIPTION_MODEL_LOADED`
false), the endpoint never returns a successful (hence never a
silently-empty) candidate list; whenever the request reaches the model
check (the file exists), it fails with the distinct model-unavailable
condition (the 503 at app.py lines 799-800). -/
theorem c5_model_unavailable (fe : Bool) (model : List (Option Real) → Real)
    (fc : List String) (ws : String → Option String) (th : Rat)
    (frame : InFrame) :
    (∀ r, getSubscriptionsEndpoint fe false model fc ws th frame ≠ Except.ok r) ∧
    (fe = true → getSubscriptionsEndpoint fe false model fc ws th frame =
      Except.error HErr.modelUnavailable) := by
  constructor
  · intro r
    cases fe with
    | false => simp [getSubscriptionsEndpoint]
    | true => simp [getSubscriptionsEndpoint]
  · intro hfe
    subst hfe
    simp [getSubscriptionsEndpoint]

theorem c5_model_unavailable_witness :
    (∀ r, getSubscriptionsEndpoint true false (fun _ => 0) [] (fun _ => none) (1 / 2)
        { cols := [], rows := [] } ≠ Except.ok r) ∧
    ((true : Bool) = true → getSubscriptionsEndpoint true false (fun _ => 0) []
        (fun _ => none) (1 / 2) { cols := [], rows := [] } =
      Except.error HErr.modelUnavailable) :=
  c5_model_unavailable true (fun _ => 0) [] (fun _ => none) (1 / 2)
    { cols := [], rows := [] }

/-- C10: when the parsed transaction set has no expense rows (the
`amount <= 0` filter leaves nothing), the endpoint raises the explicit
400 error instead of answering with an empty subscription list
(app.py lines 835-840). -/
theorem c10_no_expense_rows (model : List (Option Real) → Real)
    (fc : List String) (ws : String → Option String) (th : Rat)
    (frame : InFrame) (dateCol descCol : String)
    (hdate : detectLast dateKeywords frame.cols = some dateCol)
    (hdesc : detectLast descKeywords frame.cols = some descCol)
    (hempty : parsedExpenseRows frame dateCol descCol
      (detectFirst amountKeywords frame.cols) = []) :
    getSubscriptionsEndpoint true true model fc ws th frame =
      Except.error (HErr.badRequest "No expense transactions found for subscription analysis") := by
  simp only [getSubscriptionsEndpoint, Bool.true_eq_false, if_neg, hdate, hdesc, hempty]
  simp

theorem c10_no_expense_rows_witness :
    parsedExpenseRows
      { cols := ["date", "description", "amount"],
        rows := [fun c =>
          if c = "date" then { asDate := some 0, asStr := "2024-01-01", asNum := none }
          else if c = "amount" then { asDate := none, asStr := "500", asNum := some 500 }
          else { asDate := none, asStr := "Payroll", asNum := none }] }
      "date" "description"
      (detectFirst amountKeywords ["date", "description", "amount"]) = [] ∧
    getSubscriptionsEndpoint true true (fun _ => 0) [] (fun _ => none) (1 / 2)
      { cols := ["date", "description", "amount"],
        rows := [fun c =>
          if c = "date" then { asDate := some 0, asStr := "2024-01-01", asNum := none }
          else if c = "amount" then { asDate := none, asStr := "500", asNum := some 500 }
          else { asDate := none, asStr := "Payroll", asNum := none }] } =
      Except.error (HErr.badRequest "No expense transactions found for subscription analysis") :=
  ⟨by rfl,
   c10_no_expense_rows (fun _ => 0) [] (fun _ => none) (1 / 2) _ "date" "description"
     (by decide) (by decide) (by rfl)⟩

/-- C2: the monthly-cost estimate of a flagged candidate is
`|amount_mean| * (n_occurrences / coverage_months)` when
`coverage_months > 0`, `|amount_mean| * (30 / median_gap_days)` when
`coverage_months = 0` and `median_gap_days > 0`, and `|amount_mean|`
otherwise; in particular `(-15, 6 occurrences, 6 months) ↦ 15` and
`(-15, coverage 0, median gap 15) ↦ 30` (app.py lines 850-860). -/
theorem c2_cost_estimator (am : Rat) (n cm : Nat) (mg : Rat) :
    (0 < cm → estimateMonthlyCost am n cm mg = |am| * ((n : Rat) / (cm : Rat))) ∧
    (cm = 0 → 0 < mg → estimateMonthlyCost am n cm mg = |am| * (30 / mg)) ∧
    (cm = 0 → ¬0 < mg → estimateMonthlyCost am n cm mg = |am|) ∧
    estimateMonthlyCost (-15) 6 6 0 = 15 ∧
    estimateMonthlyCost (-15) 6 0 15 = 30 := by
  refine ⟨?_, ?_, ?_, by norm_num [estimateMonthlyCost],
    by norm_num [estimateMonthlyCost]⟩
  · intro h
    simp [estimateMonthlyCost, h]
  · intro h1 h2
    simp [estimateMonthlyCost, h1, h2]
  · intro h1 h2
    simp [estimateMonthlyCost, h1, h2]

theorem c2_cost_estimator_witness :
    ((0 < 6 → estimateMonthlyCost (-15) 6 6 0 = |(-15 : Rat)| * ((6 : Rat) / (6 : Rat))) ∧
     ((6 : Nat) = 0 → (0 : Rat) < 0 → estimateMonthlyCost (-15) 6 6 0 = |(-15 : Rat)| * (30 / 0)) ∧
     ((6 : Nat) = 0 → ¬(0 : Rat) < 0 → estimateMonthlyCost (-15) 6 6 0 = |(-15 : Rat)|) ∧
     estimateMonthlyCost (-15) 6 6 0 = 15 ∧
     estimateMonthlyCost (-15) 6 0 15 = 30) :=
  c2_cost_estimator (-15) 6 6 0
